import Mathlib

/-!
Verification development for the Solana-Cove-Vault program.

The definitions below are a shallow embedding of the instruction codec
(src/instruction.rs) and the instruction processor (src/processor.rs).
Machine integers are embedded as Nat; byte buffers as List Nat (each
element a byte value); fallible code returns an explicit result type with
an error constructor and a constructor for Rust panics (unwrap and
clone_from_slice failures). External collaborators (the asset-custody
token subsystem, the rent sysvar, the address-derivation host primitive)
and the two crate modules that are declared in lib.rs but whose sources
are not present (state.rs with the Vault record layout, error.rs with the
VaultError enum) are modelled from the specification, each marked in its
doc comment.
-/

namespace CoveVault

/-- A public key / address, abstracted as a natural number. -/
structure Pubkey where
  key : Nat
deriving DecidableEq

/-- Little-endian byte encoding of a value into a fixed number of bytes,
mirroring u64::to_le_bytes and friends (truncates modulo 256 ^ n). -/
def leBytes : Nat → Nat → List Nat
  | 0, _ => []
  | n + 1, v => v % 256 :: leBytes n (v / 256)

/-- Little-endian byte decoding, mirroring u64::from_le_bytes. -/
def fromLEBytes : List Nat → Nat
  | [] => 0
  | b :: rest => b + 256 * fromLEBytes rest

/-- Bool encoded as a byte, mirroring `as u8` casts in the source. -/
def b2n (b : Bool) : Nat := if b then 1 else 0

/-- Errors the processor can surface.  The first four constructors embed the
VaultError enum.  Modelled from the spec (section 7): error.rs is declared in
lib.rs but its source is not present under src; the spec taxonomy names them
InvalidInstruction, NotRentExempt, AccountInconsistency, ForcedCrash, and the
source uses them under exactly those Rust identifiers.  The remaining
constructors embed the solana ProgramError values used by processor.rs, plus
TokenError for any failure surfaced unmodified from the asset-custody
subsystem.  The spec names WrongOwner for IncorrectProgramId,
AlreadyInitialized for AccountAlreadyInitialized, MissingSignature for
MissingRequiredSignature and InsufficientSpace for InvalidArgument. -/
inductive ProgramError
  | InvalidInstruction
  | NotRentExempt
  | AccountInconsistency
  | ForcedCrash
  | IncorrectProgramId
  | AccountAlreadyInitialized
  | MissingRequiredSignature
  | InvalidArgument
  | InvalidAccountData
  | NotEnoughAccountKeys
  | TokenError
deriving DecidableEq

/-- Result of running a fallible piece of Rust code: success, an error
propagated with the question-mark operator, or a Rust panic (from unwrap or
from a slice-length mismatch in clone_from_slice). -/
inductive RunResult (α : Type)
  | ok (a : α)
  | err (e : ProgramError)
  | panicked
deriving DecidableEq

/-- The typed operation enum of src/instruction.rs.  WriteData carries its
payload outside the enum (read directly from the instruction buffer), so the
constructor only records the debug flag, as in the source. -/
inductive VaultInstruction
  | initializeVault
      (strategy_program_deposit_instruction_id : Nat)
      (strategy_program_withdraw_instruction_id : Nat)
      (strategy_program_estimate_instruction_id : Nat)
      (hodl : Bool) (debug_crash : Bool)
  | deposit (amount : Nat) (debug_crash : Bool)
  | withdraw (amount : Nat) (debug_crash : Bool)
  | estimateValue (debug_crash : Bool)
  | writeData (debug_crash : Bool)
deriving DecidableEq

/-- The debug-crash flag carried by every operation. -/
def VaultInstruction.debugCrash : VaultInstruction → Bool
  | .initializeVault _ _ _ _ dc => dc
  | .deposit _ dc => dc
  | .withdraw _ dc => dc
  | .estimateValue dc => dc
  | .writeData dc => dc

/-- CRASH_FLAG of src/instruction.rs. -/
def CRASH_FLAG : Nat := 64

/-- Decode of the tag-stripped body of an instruction buffer: `tag` is the
opcode after removing the crash flag, `debug_crash` the removed flag, `rest`
the bytes after the tag byte.  Mirrors the match in VaultInstruction::unpack.
The opcode-0 arm reads its four one-byte fields with Option::unwrap in the
source, so a buffer with fewer than four remaining bytes panics there. -/
def decodeBody (tag : Nat) (debug_crash : Bool) (rest : List Nat) :
    RunResult VaultInstruction :=
  match tag with
  | 0 =>
    match rest with
    | hodl :: d :: w :: e :: _ =>
      .ok (.initializeVault d w e (hodl = 1) debug_crash)
    | _ => .panicked
  | 1 =>
    if 8 ≤ rest.length then .ok (.deposit (fromLEBytes (rest.take 8)) debug_crash)
    else .err .InvalidInstruction
  | 2 =>
    if 8 ≤ rest.length then .ok (.withdraw (fromLEBytes (rest.take 8)) debug_crash)
    else .err .InvalidInstruction
  | 3 => .ok (.estimateValue debug_crash)
  | 4 => .ok (.writeData debug_crash)
  | _ => .err .InvalidInstruction

/-- VaultInstruction::unpack of src/instruction.rs. -/
def unpack (input : List Nat) : RunResult VaultInstruction :=
  match input with
  | [] => .err .InvalidInstruction
  | tag_raw :: rest =>
    decodeBody (if CRASH_FLAG ≤ tag_raw then tag_raw - CRASH_FLAG else tag_raw)
      (CRASH_FLAG ≤ tag_raw) rest

/-- VaultInstruction::pack of src/instruction.rs. -/
def pack : VaultInstruction → List Nat
  | .initializeVault d w e hodl dc =>
    (0 + if dc then CRASH_FLAG else 0) :: b2n hodl :: d :: w :: e :: []
  | .deposit amount dc => (1 + if dc then CRASH_FLAG else 0) :: leBytes 8 amount
  | .withdraw amount dc => (2 + if dc then CRASH_FLAG else 0) :: leBytes 8 amount
  | .estimateValue dc => [3 + if dc then CRASH_FLAG else 0]
  | .writeData dc => [4 + if dc then CRASH_FLAG else 0]

/-- Well-formed instruction values: every field fits the machine width it has
in the Rust enum (u8 fields below 256, u64 amounts below 2 ^ 64). -/
def VaultInstruction.wf : VaultInstruction → Prop
  | .initializeVault d w e _ _ => d < 256 ∧ w < 256 ∧ e < 256
  | .deposit amount _ => amount < 2 ^ 64
  | .withdraw amount _ => amount < 2 ^ 64
  | .estimateValue _ => True
  | .writeData _ => True

/-- The view of one ledger account an instruction receives: address, owning
program, balance, raw data, and the signer / writability flags.  Mirrors
solana AccountInfo at the granularity processor.rs uses. -/
structure AccountInfo where
  key : Pubkey
  owner : Pubkey
  lamports : Nat
  data : List Nat
  is_signer : Bool
  is_writable : Bool
deriving DecidableEq

/-- Data of the first account with the given address, if any.  Accounts that
share an address share their underlying data in the host runtime, so on
consistent account lists this is the data of every entry with that key. -/
def dataAt : List AccountInfo → Pubkey → Option (List Nat)
  | [], _ => none
  | a :: t, k => if a.key = k then some a.data else dataAt t k

/-- dataAt with an empty-buffer default, for re-reads after an update. -/
def dataAtD (accounts : List AccountInfo) (k : Pubkey) : List Nat :=
  (dataAt accounts k).getD []

/-- Writing through one AccountInfo writes the shared buffer of every
AccountInfo with the same address, so an update replaces the data of every
entry with that key. -/
def setDataByKey : List AccountInfo → Pubkey → List Nat → List AccountInfo
  | [], _, _ => []
  | a :: t, k, d =>
    (if a.key = k then { a with data := d } else a) :: setDataByKey t k d

/-- A caller-supplied account list is consistent when entries sharing an
address carry the same data, as the host runtime guarantees. -/
def Consistent (accounts : List AccountInfo) : Prop :=
  ∀ a ∈ accounts, ∀ b ∈ accounts, a.key = b.key → a.data = b.data

/-- Modelled from the spec: the asset-custody (token) subsystem is an
external collaborator specified at its interface boundary (section 6); its
account record is used by the processor only through the owner and amount
fields plus an initialized state byte. -/
structure TokenAccount where
  owner : Pubkey
  amount : Nat
  state : Nat
deriving DecidableEq

/-- Modelled from the spec: byte length of the token-account record of the
external asset-custody subsystem in this embedding. -/
def TOKEN_ACCOUNT_LEN : Nat := 41

/-- Modelled from the spec: serialization of the external token-account
record (owner address, 64-bit amount little-endian, state byte). -/
def tokenPack (t : TokenAccount) : List Nat :=
  leBytes 32 t.owner.key ++ leBytes 8 t.amount ++ [t.state % 256]

/-- Modelled from the spec: spl Account::unpack_unchecked, failing only on a
buffer of the wrong length. -/
def tokenUnpackUnchecked (d : List Nat) : Option TokenAccount :=
  if d.length = TOKEN_ACCOUNT_LEN then
    some { owner := ⟨fromLEBytes (d.take 32)⟩,
           amount := fromLEBytes ((d.drop 32).take 8),
           state := d.getD 40 0 }
  else none

/-- Modelled from the spec: spl Account::unpack, additionally rejecting an
uninitialized record. -/
def tokenUnpack (d : List Nat) : Option TokenAccount :=
  match tokenUnpackUnchecked d with
  | some t => if t.state = 0 then none else some t
  | none => none

/-- The Vault Storage Record, state::Vault.  Field list as read and written
by processor.rs. -/
structure Vault where
  is_initialized : Bool
  hodl : Bool
  vault_token_account : Pubkey
  llx_token_mint_id : Pubkey
  strategy_program_id : Pubkey
  strategy_program_deposit_instruction_id : Nat
  strategy_program_withdraw_instruction_id : Nat
  strategy_program_estimate_instruction_id : Nat
  last_estimated_value : Nat
deriving DecidableEq

/-- Modelled from the spec: state.rs is declared in lib.rs but its source is
not present under src; the spec fixes the record as fixed-size with exactly
these fields (section 3), so the embedding lays them out in field order:
two flag bytes, three 32-byte addresses, three one-byte opcode ids, and the
64-bit cached value little-endian. -/
def Vault.LEN : Nat := 109

/-- Modelled from the spec: Pack::pack of the Vault record (see Vault.LEN). -/
def vaultPack (v : Vault) : List Nat :=
  b2n v.is_initialized :: b2n v.hodl ::
    (leBytes 32 v.vault_token_account.key ++ leBytes 32 v.llx_token_mint_id.key ++
      leBytes 32 v.strategy_program_id.key ++
      [v.strategy_program_deposit_instruction_id % 256,
       v.strategy_program_withdraw_instruction_id % 256,
       v.strategy_program_estimate_instruction_id % 256] ++
      leBytes 8 v.last_estimated_value)

/-- Modelled from the spec: Pack::unpack_unchecked of the Vault record,
failing with InvalidAccountData on a buffer of the wrong length (see
Vault.LEN). -/
def vaultUnpackUnchecked (d : List Nat) : RunResult Vault :=
  if d.length = Vault.LEN then
    .ok { is_initialized := d.getD 0 0 = 1,
          hodl := d.getD 1 0 = 1,
          vault_token_account := ⟨fromLEBytes ((d.drop 2).take 32)⟩,
          llx_token_mint_id := ⟨fromLEBytes ((d.drop 34).take 32)⟩,
          strategy_program_id := ⟨fromLEBytes ((d.drop 66).take 32)⟩,
          strategy_program_deposit_instruction_id := d.getD 98 0,
          strategy_program_withdraw_instruction_id := d.getD 99 0,
          strategy_program_estimate_instruction_id := d.getD 100 0,
          last_estimated_value := fromLEBytes ((d.drop 101).take 8) }
  else .err .InvalidAccountData

/-- Modelled from the spec: the rent-exemption sysvar (section 6), a host
parameter pair from which a minimum balance per data length is computed. -/
structure Rent where
  lamports_per_byte_year : Nat
  exemption_threshold_years : Nat
deriving DecidableEq

/-- Modelled from the spec: minimum lamport balance for rent exemption for a
given data length. -/
def Rent.minimumBalance (r : Rent) (data_len : Nat) : Nat :=
  (128 + data_len) * r.lamports_per_byte_year * r.exemption_threshold_years

/-- Modelled from the spec: the rent-exemption query used in Initialize. -/
def Rent.isExempt (r : Rent) (lamports data_len : Nat) : Bool :=
  decide (r.minimumBalance data_len ≤ lamports)

/-- Address of the rent sysvar account. -/
def RENT_SYSVAR : Pubkey := ⟨10 ^ 90⟩

/-- Modelled from the spec: Rent::from_account_info, rejecting an account
that is not the rent sysvar and decoding the two host parameters from its
data as two 64-bit little-endian values. -/
def rentFromAccountInfo (a : AccountInfo) : RunResult Rent :=
  if a.key = RENT_SYSVAR ∧ a.data.length = 16 then
    .ok ⟨fromLEBytes (a.data.take 8), fromLEBytes ((a.data.drop 8).take 8)⟩
  else .err .InvalidArgument

/-- The fixed derivation seed b"vault" used by the processor. -/
def VAULT_SEED : List Nat := [118, 97, 117, 108, 116]

/-- Modelled from the spec: the host primitive find_program_address deriving
the keyless signing authority deterministically from a seed and the program
identity (sections 3 and 4.2); embedded as a deterministic pairing of the
seed and the program identity inside the 32-byte key space, with a fixed
bump seed. -/
def findProgramAddress (seed : List Nat) (program_id : Pubkey) : Pubkey × Nat :=
  (⟨(2 ^ 128 + fromLEBytes seed + 2 ^ 140 * program_id.key) % 2 ^ 256⟩, 255)

/-- A cross-program invocation performed by the processor, as recorded in the
execution trace: a token-subsystem transfer, a token-subsystem authority
reassignment (mint_tokens selects the authority kind), an invocation of a
strategy-protocol transfer or estimate instruction on another program, or a
self-invocation of WriteData. -/
inductive Cpi
  | tokenTransfer (token_program source dest authority : Pubkey) (amount : Nat)
  | setAuthority (token_program target new_authority : Pubkey)
      (mint_tokens : Bool) (current : Pubkey)
  | strategyTransfer (target_program : Pubkey) (instruction_id : Nat)
      (token_program source dest : Pubkey) (amount : Nat) (signed : Bool)
  | strategyEstimate (target_program : Pubkey) (instruction_id : Nat)
      (output : Pubkey)
  | selfWriteData (target : Pubkey) (payload : List Nat)
deriving DecidableEq

/-- Result of one processor entry point: the run result carrying the updated
account list on success (the host discards staged changes on error or panic),
plus the trace of cross-program invocations performed before returning. -/
structure ProcOut where
  result : RunResult (List AccountInfo)
  cpis : List Cpi
deriving DecidableEq

/-- Modelled from the spec: the transfer operation of the asset-custody
subsystem (section 6).  Reads both token accounts through the shared buffers,
requires the authority to be the source owner and to have signed, and
sufficient funds; a transfer to the same address leaves balances unchanged.
Any failure is surfaced as TokenError. -/
def splTransfer (accounts : List AccountInfo)
    (source_key dest_key authority : Pubkey) (authority_signed : Bool)
    (amount : Nat) : RunResult (List AccountInfo) :=
  match tokenUnpack (dataAtD accounts source_key),
        tokenUnpack (dataAtD accounts dest_key) with
  | some s, some d =>
    if ¬authority_signed then .err .TokenError
    else if s.owner ≠ authority then .err .TokenError
    else if s.amount < amount then .err .TokenError
    else if source_key = dest_key then .ok accounts
    else
      .ok (setDataByKey
            (setDataByKey accounts source_key
              (tokenPack { s with amount := s.amount - amount }))
            dest_key (tokenPack { d with amount := d.amount + amount }))
  | _, _ => .err .TokenError

/-- Modelled from the spec: the set_authority operation of the asset-custody
subsystem (section 6), reassigning the recorded authority of a token account
or mint; requires the current authority to match and to have signed. -/
def splSetAuthority (accounts : List AccountInfo)
    (target_key new_authority current_authority : Pubkey)
    (current_signed : Bool) : RunResult (List AccountInfo) :=
  match tokenUnpack (dataAtD accounts target_key) with
  | none => .err .TokenError
  | some t =>
    if ¬current_signed then .err .TokenError
    else if t.owner ≠ current_authority then .err .TokenError
    else .ok (setDataByKey accounts target_key
                (tokenPack { t with owner := new_authority }))

/-- Processor::process_initialize_vault of src/processor.rs, in source order:
account extraction with rent decoding, the asset-account ownership check, the
rent-exemption check, the already-initialized check, populating and
persisting the record, and only then the signer check followed by the two
authority-reassignment invocations of the asset-custody subsystem. -/
def process_initialize_vault (program_id : Pubkey) (accounts : List AccountInfo)
    (hodl : Bool)
    (strategy_program_deposit_instruction_id : Nat)
    (strategy_program_withdraw_instruction_id : Nat)
    (strategy_program_estimate_instruction_id : Nat) : ProcOut :=
  match accounts with
  | token_account_owner :: storage_account :: vault_token_account ::
      llx_token_mint_id :: token_program :: strategy_program ::
      rent_account :: _ =>
    match rentFromAccountInfo rent_account with
    | .err e => ⟨.err e, []⟩
    | .panicked => ⟨.panicked, []⟩
    | .ok rent =>
      if vault_token_account.owner ≠ token_program.key ∨
          llx_token_mint_id.owner ≠ token_program.key then
        ⟨.err .IncorrectProgramId, []⟩
      else if ¬rent.isExempt storage_account.lamports storage_account.data.length then
        ⟨.err .NotRentExempt, []⟩
      else
        match vaultUnpackUnchecked storage_account.data with
        | .err e => ⟨.err e, []⟩
        | .panicked => ⟨.panicked, []⟩
        | .ok storage_info0 =>
          if storage_info0.is_initialized then
            ⟨.err .AccountAlreadyInitialized, []⟩
          else
            let storage_info : Vault :=
              { is_initialized := true,
                hodl := hodl,
                vault_token_account := vault_token_account.key,
                llx_token_mint_id := llx_token_mint_id.key,
                strategy_program_id := strategy_program.key,
                strategy_program_deposit_instruction_id :=
                  strategy_program_deposit_instruction_id,
                strategy_program_withdraw_instruction_id :=
                  strategy_program_withdraw_instruction_id,
                strategy_program_estimate_instruction_id :=
                  strategy_program_estimate_instruction_id,
                last_estimated_value := 0 }
            if storage_account.data.length ≠ Vault.LEN then
              ⟨.err .InvalidAccountData, []⟩
            else
              let accounts1 := setDataByKey accounts storage_account.key
                (vaultPack storage_info)
              let pda := (findProgramAddress VAULT_SEED program_id).1
              if ¬token_account_owner.is_signer then
                ⟨.err .MissingRequiredSignature, []⟩
              else
                let c1 := Cpi.setAuthority token_program.key
                  vault_token_account.key pda false token_account_owner.key
                match splSetAuthority accounts1 vault_token_account.key pda
                    token_account_owner.key token_account_owner.is_signer with
                | .err e => ⟨.err e, [c1]⟩
                | .panicked => ⟨.panicked, [c1]⟩
                | .ok accounts2 =>
                  match tokenUnpack (dataAtD accounts2 vault_token_account.key) with
                  | none => ⟨.panicked, [c1]⟩
                  | some _ =>
                    let c2 := Cpi.setAuthority token_program.key
                      llx_token_mint_id.key pda true token_account_owner.key
                    match splSetAuthority accounts2 llx_token_mint_id.key pda
                        token_account_owner.key token_account_owner.is_signer with
                    | .err e => ⟨.err e, [c1, c2]⟩
                    | .panicked => ⟨.panicked, [c1, c2]⟩
                    | .ok accounts3 => ⟨.ok accounts3, [c1, c2]⟩
  | _ => ⟨.err .NotEnoughAccountKeys, []⟩

/-- Processor::process_transfer of src/processor.rs, shared by Deposit
(is_deposit true) and Withdraw.  The invocation of a strategy program in the
delegated branch is abstracted by the strategyExec parameter, which receives
the recorded invocation and the full account list; note that the source
builds the transfer instruction for the delegated branch against program_id
(its own identity) rather than the supplied strategy account. -/
def process_transfer (strategyExec : Cpi → List AccountInfo → ProcOut)
    (program_id : Pubkey) (accounts : List AccountInfo)
    (amount : Nat) (is_deposit : Bool) : ProcOut :=
  match accounts with
  | token_program :: source_token_account :: target_token_account ::
      source_authority :: storage_account :: strategy_program :: rest =>
    match vaultUnpackUnchecked storage_account.data with
    | .err e => ⟨.err e, []⟩
    | .panicked => ⟨.panicked, []⟩
    | .ok storage_info =>
      if ¬storage_info.is_initialized then ⟨.err .InvalidInstruction, []⟩
      else if strategy_program.key ≠ storage_info.strategy_program_id then
        ⟨.err .InvalidInstruction, []⟩
      else
        let pda := (findProgramAddress VAULT_SEED program_id).1
        if storage_info.hodl then
          match rest with
          | [] => ⟨.err .NotEnoughAccountKeys, []⟩
          | x_token_account :: _ =>
            if is_deposit then
              let c := Cpi.tokenTransfer token_program.key
                source_token_account.key x_token_account.key
                source_authority.key amount
              match splTransfer accounts source_token_account.key
                  x_token_account.key source_authority.key
                  source_authority.is_signer amount with
              | .err e => ⟨.err e, [c]⟩
              | .panicked => ⟨.panicked, [c]⟩
              | .ok accounts1 => ⟨.ok accounts1, [c]⟩
            else
              match tokenUnpack x_token_account.data with
              | none => ⟨.panicked, []⟩
              | some internal_account =>
                if internal_account.owner ≠ pda then
                  ⟨.err .AccountInconsistency, []⟩
                else
                  let c := Cpi.tokenTransfer token_program.key
                    x_token_account.key target_token_account.key pda amount
                  match splTransfer accounts x_token_account.key
                      target_token_account.key pda true amount with
                  | .err e => ⟨.err e, [c]⟩
                  | .panicked => ⟨.panicked, [c]⟩
                  | .ok accounts1 => ⟨.ok accounts1, [c]⟩
        else
          let c := Cpi.strategyTransfer program_id
            (if is_deposit then storage_info.strategy_program_deposit_instruction_id
             else storage_info.strategy_program_withdraw_instruction_id)
            token_program.key source_token_account.key target_token_account.key
            amount (¬is_deposit)
          let out := strategyExec c accounts
          ⟨out.result, c :: out.cpis⟩
  | _ => ⟨.err .NotEnoughAccountKeys, []⟩

/-- Processor::process_estimate_value of src/processor.rs.  The direct (hodl)
branch reads the current amount of the held-balance token account and writes
it through a self-invocation of WriteData, executed inline here exactly as
the dispatcher would; the delegated branch verifies the supplied strategy
identity against the record and forwards through strategyExec. -/
def process_estimate_value (strategyExec : Cpi → List AccountInfo → ProcOut)
    (_program_id : Pubkey) (accounts : List AccountInfo) : ProcOut :=
  match accounts with
  | _program :: temp_memory_account :: storage_account :: rest =>
    match vaultUnpackUnchecked storage_account.data with
    | .err e => ⟨.err e, []⟩
    | .panicked => ⟨.panicked, []⟩
    | .ok storage_info =>
      if ¬storage_info.is_initialized then ⟨.err .InvalidInstruction, []⟩
      else if storage_info.hodl then
        match rest with
        | [] => ⟨.err .NotEnoughAccountKeys, []⟩
        | x_token_account :: _ =>
          match tokenUnpackUnchecked x_token_account.data with
          | none => ⟨.panicked, []⟩
          | some internal_account =>
            let payload := leBytes 8 internal_account.amount
            let c := Cpi.selfWriteData temp_memory_account.key payload
            if temp_memory_account.data.length < payload.length then
              ⟨.err .InvalidArgument, [c]⟩
            else if temp_memory_account.data.length ≠ payload.length then
              ⟨.panicked, [c]⟩
            else
              ⟨.ok (setDataByKey accounts temp_memory_account.key payload), [c]⟩
      else
        match rest with
        | [] => ⟨.err .NotEnoughAccountKeys, []⟩
        | strategy_program :: _ =>
          if strategy_program.key ≠ storage_info.strategy_program_id then
            ⟨.err .InvalidInstruction, []⟩
          else
            let c := Cpi.strategyEstimate strategy_program.key
              storage_info.strategy_program_estimate_instruction_id
              temp_memory_account.key
            let out := strategyExec c accounts
            ⟨out.result, c :: out.cpis⟩
  | _ => ⟨.err .NotEnoughAccountKeys, []⟩

/-- Processor::process_write_data of src/processor.rs.  A non-zero balance on
the target is only logged; a payload longer than the allocated storage fails
with the insufficient-space error (ProgramError::InvalidArgument in the
source); the copy itself is clone_from_slice, which panics unless the payload
length equals the allocated length exactly. -/
def process_write_data (accounts : List AccountInfo) (data : List Nat) : ProcOut :=
  match accounts with
  | storage_account :: _ =>
    if storage_account.data.length < data.length then ⟨.err .InvalidArgument, []⟩
    else if storage_account.data.length ≠ data.length then ⟨.panicked, []⟩
    else ⟨.ok (setDataByKey accounts storage_account.key data), []⟩
  | _ => ⟨.err .NotEnoughAccountKeys, []⟩

/-- Dispatch of one decoded operation, mirroring the match in
Processor::process.  The WriteData payload is re-read from the raw
instruction buffer, as in the source. -/
def processDecoded (strategyExec : Cpi → List AccountInfo → ProcOut)
    (program_id : Pubkey) (accounts : List AccountInfo)
    (instruction_data : List Nat) : VaultInstruction → ProcOut
  | .initializeVault d w e hodl _ =>
    process_initialize_vault program_id accounts hodl d w e
  | .deposit amount _ => process_transfer strategyExec program_id accounts amount true
  | .withdraw amount _ => process_transfer strategyExec program_id accounts amount false
  | .estimateValue _ => process_estimate_value strategyExec program_id accounts
  | .writeData _ =>
    match instruction_data with
    | [] => ⟨.err .InvalidInstruction, []⟩
    | _ :: data => process_write_data accounts data

/-- Processor::process of src/processor.rs: unpack, dispatch, and the
debug-crash epilogue, which turns a successful operation into a ForcedCrash
error after its effects (a failed operation propagates its own error). -/
def process (strategyExec : Cpi → List AccountInfo → ProcOut)
    (program_id : Pubkey) (accounts : List AccountInfo)
    (instruction_data : List Nat) : ProcOut :=
  match unpack instruction_data with
  | .err e => ⟨.err e, []⟩
  | .panicked => ⟨.panicked, []⟩
  | .ok instruction =>
    let out := processDecoded strategyExec program_id accounts instruction_data
      instruction
    match out.result with
    | .ok _ =>
      if instruction.debugCrash then ⟨.err .ForcedCrash, out.cpis⟩ else out
    | _ => out

/-- A strategy program that returns the accounts unchanged and performs no
further invocations; used to instantiate the abstract strategy parameter in
concrete runs. -/
def trivialStrategyExec : Cpi → List AccountInfo → ProcOut :=
  fun _ accounts => ⟨.ok accounts, []⟩

/-- The external call preserves the data stored under one address: the frame
condition the strategy-protocol contract guarantees for the Vault storage
record (an estimate or transfer on a child strategy does not rewrite the
parent record). -/
def PreservesKey (k : Pubkey) (f : Cpi → List AccountInfo → ProcOut) : Prop :=
  ∀ c accounts accounts2, (f c accounts).result = .ok accounts2 →
    dataAt accounts2 k = dataAt accounts k

/- Concrete fixture accounts used to instantiate theorems with hypotheses. -/

/-- Fixture: the vault program identity. -/
def exProgramId : Pubkey := ⟨9⟩

/-- Fixture: the derived signing authority of exProgramId. -/
def exPda : Pubkey := (findProgramAddress VAULT_SEED exProgramId).1

/-- Fixture: an initialized hodl Vault record with strategy program ⟨7⟩. -/
def exRecord : Vault := ⟨true, true, ⟨40⟩, ⟨41⟩, ⟨7⟩, 11, 12, 13, 0⟩

/-- Fixture: the asset-custody (token) program account. -/
def exTokenProgram : AccountInfo := ⟨⟨100⟩, ⟨1⟩, 1, [], false, false⟩

/-- Fixture: the strategy program account matching exRecord. -/
def exStrategyProgram : AccountInfo := ⟨⟨7⟩, ⟨1⟩, 1, [], false, false⟩

/-- Fixture: initialized storage account holding exRecord. -/
def exStorage : AccountInfo := ⟨⟨2⟩, ⟨9⟩, 1000000, vaultPack exRecord, false, true⟩

/-- Fixture: a freshly allocated all-zero storage account. -/
def exStorageNew : AccountInfo := ⟨⟨2⟩, ⟨9⟩, 10 ^ 9, List.replicate 109 0, false, true⟩

/-- Fixture: the initializer, a required signer. -/
def exOwner : AccountInfo := ⟨⟨5⟩, ⟨1⟩, 1, [], true, false⟩

/-- Fixture: the rent sysvar account with unit host parameters. -/
def exRent : AccountInfo :=
  ⟨RENT_SYSVAR, ⟨1⟩, 1, leBytes 8 1 ++ leBytes 8 1, false, false⟩

/-- Fixture: the held-balance token account, owned by the derived authority,
holding 100 units. -/
def exXAccount : AccountInfo :=
  ⟨⟨40⟩, ⟨100⟩, 1, tokenPack ⟨exPda, 100, 1⟩, false, true⟩

/-- Fixture: a held-balance token account whose recorded owner ⟨55⟩ is not
the derived authority. -/
def exXAccountBad : AccountInfo :=
  ⟨⟨40⟩, ⟨100⟩, 1, tokenPack ⟨⟨55⟩, 100, 1⟩, false, true⟩

/-- Fixture: the vault token account before initialization, owned by the
initializer. -/
def exVta : AccountInfo := ⟨⟨40⟩, ⟨100⟩, 1, tokenPack ⟨⟨5⟩, 0, 1⟩, false, true⟩

/-- Fixture: the derivative mint account, authority held by the initializer. -/
def exLlx : AccountInfo := ⟨⟨41⟩, ⟨100⟩, 1, tokenPack ⟨⟨5⟩, 0, 1⟩, false, true⟩

/-- Fixture: the source authority, a signer with address ⟨5⟩. -/
def exAuthority : AccountInfo := ⟨⟨5⟩, ⟨1⟩, 1, [], true, false⟩

/-- Fixture: a client source token account owned by ⟨5⟩ with 1000 units. -/
def exSourceTok : AccountInfo :=
  ⟨⟨50⟩, ⟨100⟩, 1, tokenPack ⟨⟨5⟩, 1000, 1⟩, false, true⟩

/-- Fixture: a client target token account owned by ⟨5⟩ with 0 units. -/
def exTargetTok : AccountInfo :=
  ⟨⟨51⟩, ⟨100⟩, 1, tokenPack ⟨⟨5⟩, 0, 1⟩, false, true⟩

/-- Fixture: the caller program account slot of EstimateValue. -/
def exCallerProgram : AccountInfo := ⟨exProgramId, ⟨1⟩, 1, [], false, false⟩

/-- Fixture: an 8-byte scratch output account. -/
def exScratch : AccountInfo := ⟨⟨3⟩, ⟨9⟩, 5, List.replicate 8 0, false, true⟩

/-- Fixture: an uninitialized Vault record otherwise matching exRecord. -/
def exRecordUninit : Vault := ⟨false, true, ⟨40⟩, ⟨41⟩, ⟨7⟩, 11, 12, 13, 0⟩

/-- Fixture: a storage account holding the uninitialized exRecordUninit. -/
def exStorageUninit : AccountInfo :=
  ⟨⟨2⟩, ⟨9⟩, 1000000, vaultPack exRecordUninit, false, true⟩

/-- Fixture: a program account whose address ⟨8⟩ differs from the strategy
recorded in exRecord. -/
def exWrongStrategy : AccountInfo := ⟨⟨8⟩, ⟨1⟩, 1, [], false, false⟩

/-- Fixture: the account list of a hodl deposit call. -/
def exDepositAccounts : List AccountInfo :=
  [exTokenProgram, exSourceTok, exTargetTok, exAuthority, exStorage,
    exStrategyProgram, exXAccount]

/-- Fixture: exDepositAccounts after a successful deposit of 10 units. -/
def exDepositAccountsAfter : List AccountInfo :=
  [exTokenProgram, { exSourceTok with data := tokenPack ⟨⟨5⟩, 990, 1⟩ },
    exTargetTok, exAuthority, exStorage, exStrategyProgram,
    { exXAccount with data := tokenPack ⟨exPda, 110, 1⟩ }]

/-! Helper lemmas about the byte codec and the account-list primitives. -/

theorem leBytes_length (n v : Nat) : (leBytes n v).length = n := by
  induction n generalizing v with
  | zero => rfl
  | succ n ih => simp [leBytes, ih]

theorem fromLEBytes_leBytes (n v : Nat) :
    fromLEBytes (leBytes n v) = v % 256 ^ n := by
  induction n generalizing v with
  | zero => simp [leBytes, fromLEBytes, Nat.mod_one]
  | succ n ih =>
    rw [leBytes, fromLEBytes, ih, pow_succ', Nat.mod_mul]

theorem dataAt_setDataByKey_ne (l : List AccountInfo) (k k2 : Pubkey)
    (d : List Nat) (h : k ≠ k2) :
    dataAt (setDataByKey l k2 d) k = dataAt l k := by
  induction l with
  | nil => rfl
  | cons a t ih =>
    by_cases hk : a.key = k2
    · have hne : ¬a.key = k := fun he => h ((he.symm).trans hk)
      simp [setDataByKey, dataAt, hk, hne, Ne.symm h, ih]
    · by_cases hak : a.key = k
      · simp [setDataByKey, dataAt, hk, hak, h, Ne.symm h]
      · simp [setDataByKey, dataAt, hk, hak, ih]

theorem dataAt_setDataByKey_eq (l : List AccountInfo) (k : Pubkey)
    (d : List Nat) :
    dataAt (setDataByKey l k d) k = (dataAt l k).map (fun _ => d) := by
  induction l with
  | nil => rfl
  | cons a t ih =>
    by_cases hk : a.key = k
    · simp [setDataByKey, dataAt, hk]
    · simp [setDataByKey, dataAt, hk, ih]

theorem dataAt_of_mem (l : List AccountInfo) (a : AccountInfo)
    (hc : Consistent l) (ha : a ∈ l) : dataAt l a.key = some a.data := by
  induction l with
  | nil => cases ha
  | cons b t ih =>
    by_cases hk : b.key = a.key
    · have hd : b.data = a.data :=
        hc b (List.mem_cons_self b t) a ha hk
      simp [dataAt, hk, hd]
    · have ha2 : a ∈ t := by
        rcases List.mem_cons.mp ha with h1 | h1
        · exact absurd (h1 ▸ rfl) hk
        · exact h1
      have hc2 : Consistent t := fun x hx y hy =>
        hc x (List.mem_cons_of_mem b hx) y (List.mem_cons_of_mem b hy)
      simp [dataAt, hk, ih hc2 ha2]

theorem tokenUnpack_length (d : List Nat) (t : TokenAccount)
    (h : tokenUnpack d = some t) : d.length = TOKEN_ACCOUNT_LEN := by
  unfold tokenUnpack tokenUnpackUnchecked at h
  by_cases hl : d.length = TOKEN_ACCOUNT_LEN
  · exact hl
  · simp [hl] at h

theorem vaultUnpackUnchecked_length (d : List Nat) (v : Vault)
    (h : vaultUnpackUnchecked d = .ok v) : d.length = Vault.LEN := by
  unfold vaultUnpackUnchecked at h
  by_cases hl : d.length = Vault.LEN
  · exact hl
  · simp [hl] at h

theorem splTransfer_ok_frame (l : List AccountInfo)
    (sk dk ak : Pubkey) (sgn : Bool) (amt : Nat) (l2 : List AccountInfo)
    (k : Pubkey) (h : splTransfer l sk dk ak sgn amt = .ok l2)
    (hk : (dataAtD l k).length ≠ TOKEN_ACCOUNT_LEN) :
    dataAt l2 k = dataAt l k := by
  unfold splTransfer at h
  cases hsrc : tokenUnpack (dataAtD l sk) with
  | none => rw [hsrc] at h; cases hdst : tokenUnpack (dataAtD l dk) <;>
      rw [hdst] at h <;> cases h
  | some s =>
    cases hdst : tokenUnpack (dataAtD l dk) with
    | none => rw [hsrc, hdst] at h; cases h
    | some d2 =>
      rw [hsrc, hdst] at h
      have hks : k ≠ sk := by
        intro he
        exact hk (he ▸ tokenUnpack_length _ _ hsrc)
      have hkd : k ≠ dk := by
        intro he
        exact hk (he ▸ tokenUnpack_length _ _ hdst)
      by_cases h1 : ¬sgn
      · simp only [if_pos h1] at h; cases h
      · simp only [if_neg h1] at h
        by_cases h2 : s.owner ≠ ak
        · simp only [if_pos h2] at h; cases h
        · simp only [if_neg h2] at h
          by_cases h3 : s.amount < amt
          · simp only [if_pos h3] at h; cases h
          · simp only [if_neg h3] at h
            by_cases h4 : sk = dk
            · simp only [if_pos h4] at h
              cases h; rfl
            · simp only [if_neg h4] at h
              cases h
              rw [dataAt_setDataByKey_ne _ _ _ _ hkd,
                dataAt_setDataByKey_ne _ _ _ _ hks]

theorem initialize_wrong_owner
    (program_id : Pubkey)
    (owner storage vta llx tok strat rentA : AccountInfo)
    (more : List AccountInfo) (r : Rent) (hodl : Bool) (d w e : Nat)
    (hrent : rentFromAccountInfo rentA = .ok r)
    (hown : vta.owner ≠ tok.key ∨ llx.owner ≠ tok.key) :
    process_initialize_vault program_id
      (owner :: storage :: vta :: llx :: tok :: strat :: rentA :: more)
      hodl d w e = ⟨.err .IncorrectProgramId, []⟩ := by
  unfold process_initialize_vault
  simp [hrent, hown]

theorem initialize_already_initialized
    (program_id : Pubkey)
    (owner storage vta llx tok strat rentA : AccountInfo)
    (more : List AccountInfo) (r : Rent) (v : Vault) (hodl : Bool) (d w e : Nat)
    (hrent : rentFromAccountInfo rentA = .ok r)
    (hown1 : vta.owner = tok.key) (hown2 : llx.owner = tok.key)
    (hex : r.isExempt storage.lamports storage.data.length = true)
    (hv : vaultUnpackUnchecked storage.data = .ok v)
    (hinit : v.is_initialized = true) :
    process_initialize_vault program_id
      (owner :: storage :: vta :: llx :: tok :: strat :: rentA :: more)
      hodl d w e = ⟨.err .AccountAlreadyInitialized, []⟩ := by
  unfold process_initialize_vault
  simp [hrent, hown1, hown2, hex, hv, hinit]

theorem initialize_missing_signature
    (program_id : Pubkey)
    (owner storage vta llx tok strat rentA : AccountInfo)
    (more : List AccountInfo) (r : Rent) (v : Vault) (hodl : Bool) (d w e : Nat)
    (hrent : rentFromAccountInfo rentA = .ok r)
    (hown1 : vta.owner = tok.key) (hown2 : llx.owner = tok.key)
    (hex : r.isExempt storage.lamports storage.data.length = true)
    (hv : vaultUnpackUnchecked storage.data = .ok v)
    (hinit : v.is_initialized = false)
    (hsig : owner.is_signer = false) :
    process_initialize_vault program_id
      (owner :: storage :: vta :: llx :: tok :: strat :: rentA :: more)
      hodl d w e = ⟨.err .MissingRequiredSignature, []⟩ := by
  have hlen : storage.data.length = Vault.LEN :=
    vaultUnpackUnchecked_length _ _ hv
  have hex2 : r.isExempt storage.lamports Vault.LEN = true := hlen ▸ hex
  unfold process_initialize_vault
  simp [hrent, hown1, hown2, hex, hex2, hv, hinit, hlen, hsig]

theorem estimate_ok_preserves_storage
    (strategyExec : Cpi → List AccountInfo → ProcOut) (program_id : Pubkey)
    (prog temp storage : AccountInfo) (rest : List AccountInfo)
    (v : Vault) (accounts2 : List AccountInfo) (cpis : List Cpi)
    (hcons : Consistent (prog :: temp :: storage :: rest))
    (hpres : PreservesKey storage.key strategyExec)
    (hv : vaultUnpackUnchecked storage.data = .ok v)
    (hrun : process_estimate_value strategyExec program_id
        (prog :: temp :: storage :: rest) = ⟨.ok accounts2, cpis⟩) :
    dataAt accounts2 storage.key = some storage.data := by
  have hmem : storage ∈ prog :: temp :: storage :: rest := by simp
  have hdat0 : dataAt (prog :: temp :: storage :: rest) storage.key =
      some storage.data := dataAt_of_mem _ _ hcons hmem
  have hlen : storage.data.length = Vault.LEN :=
    vaultUnpackUnchecked_length _ _ hv
  by_cases hinit : v.is_initialized
  case neg => simp [process_estimate_value, hv, hinit] at hrun
  case pos =>
  by_cases hhodl : v.hodl
  case pos =>
    cases rest with
    | nil => simp [process_estimate_value, hv, hinit, hhodl] at hrun
    | cons x rest2 =>
      cases hx : tokenUnpackUnchecked x.data with
      | none => simp [process_estimate_value, hv, hinit, hhodl, hx] at hrun
      | some t =>
        by_cases h1 : temp.data.length < 8
        case pos =>
          simp [process_estimate_value, hv, hinit, hhodl, hx, h1,
            leBytes_length] at hrun
        case neg =>
        by_cases h2 : temp.data.length = 8
        case neg =>
          simp [process_estimate_value, hv, hinit, hhodl, hx, h1, h2,
            leBytes_length] at hrun
        case pos =>
          simp [process_estimate_value, hv, hinit, hhodl, hx, h1, h2,
            leBytes_length] at hrun
          obtain ⟨ha, _⟩ := hrun
          have hne : storage.key ≠ temp.key := by
            intro he
            have hdd : temp.data = storage.data :=
              hcons temp (by simp) storage (by simp) he.symm
            rw [hdd, hlen] at h2
            exact absurd h2 (by norm_num [Vault.LEN])
          rw [← ha, dataAt_setDataByKey_ne _ _ _ _ hne, hdat0]
  case neg =>
    cases rest with
    | nil => simp [process_estimate_value, hv, hinit, hhodl] at hrun
    | cons strat rest2 =>
      by_cases hs : strat.key = v.strategy_program_id
      case neg =>
        simp [process_estimate_value, hv, hinit, hhodl, hs] at hrun
      case pos =>
        simp [process_estimate_value, hv, hinit, hhodl, hs] at hrun
        obtain ⟨hres, _⟩ := hrun
        rw [hpres _ _ _ hres, hdat0]

theorem transfer_ok_preserves_storage
    (strategyExec : Cpi → List AccountInfo → ProcOut) (program_id : Pubkey)
    (token_program source target authority storage strat : AccountInfo)
    (rest : List AccountInfo) (amount : Nat) (is_deposit : Bool)
    (v : Vault) (accounts2 : List AccountInfo) (cpis : List Cpi)
    (hcons : Consistent (token_program :: source :: target :: authority ::
      storage :: strat :: rest))
    (hpres : PreservesKey storage.key strategyExec)
    (hv : vaultUnpackUnchecked storage.data = .ok v)
    (hrun : process_transfer strategyExec program_id
        (token_program :: source :: target :: authority :: storage :: strat :: rest)
        amount is_deposit = ⟨.ok accounts2, cpis⟩) :
    dataAt accounts2 storage.key = some storage.data := by
  have hdat0 : dataAt (token_program :: source :: target :: authority ::
      storage :: strat :: rest) storage.key = some storage.data :=
    dataAt_of_mem _ _ hcons (by simp)
  have hlen : storage.data.length = Vault.LEN :=
    vaultUnpackUnchecked_length _ _ hv
  have hlenne : (dataAtD (token_program :: source :: target :: authority ::
      storage :: strat :: rest) storage.key).length ≠ TOKEN_ACCOUNT_LEN := by
    simp [dataAtD, hdat0, hlen]
    norm_num [Vault.LEN, TOKEN_ACCOUNT_LEN]
  by_cases hinit : v.is_initialized
  case neg => simp [process_transfer, hv, hinit] at hrun
  case pos =>
  by_cases hs : strat.key = v.strategy_program_id
  case neg => simp [process_transfer, hv, hinit, hs] at hrun
  case pos =>
  by_cases hhodl : v.hodl
  case pos =>
    cases rest with
    | nil => simp [process_transfer, hv, hinit, hs, hhodl] at hrun
    | cons x rest2 =>
      cases is_deposit with
      | true =>
        cases hsp : splTransfer (token_program :: source :: target ::
            authority :: storage :: strat :: x :: rest2) source.key x.key
            authority.key authority.is_signer amount with
        | ok l2 =>
          simp [process_transfer, hv, hinit, hs, hhodl, hsp] at hrun
          obtain ⟨ha, _⟩ := hrun
          rw [← ha, splTransfer_ok_frame _ _ _ _ _ _ _ _ hsp hlenne, hdat0]
        | err e => simp [process_transfer, hv, hinit, hs, hhodl, hsp] at hrun
        | panicked => simp [process_transfer, hv, hinit, hs, hhodl, hsp] at hrun
      | false =>
        cases hx : tokenUnpack x.data with
        | none => simp [process_transfer, hv, hinit, hs, hhodl, hx] at hrun
        | some t =>
          by_cases ho : t.owner ≠ (findProgramAddress VAULT_SEED program_id).1
          case pos =>
            simp [process_transfer, hv, hinit, hs, hhodl, hx, ho] at hrun
          case neg =>
            cases hsp : splTransfer (token_program :: source :: target ::
                authority :: storage :: strat :: x :: rest2) x.key target.key
                (findProgramAddress VAULT_SEED program_id).1 true amount with
            | ok l2 =>
              simp [process_transfer, hv, hinit, hs, hhodl, hx, ho, hsp] at hrun
              obtain ⟨ha, _⟩ := hrun
              rw [← ha, splTransfer_ok_frame _ _ _ _ _ _ _ _ hsp hlenne, hdat0]
            | err e =>
              simp [process_transfer, hv, hinit, hs, hhodl, hx, ho, hsp] at hrun
            | panicked =>
              simp [process_transfer, hv, hinit, hs, hhodl, hx, ho, hsp] at hrun
  case neg =>
    simp [process_transfer, hv, hinit, hs, hhodl] at hrun
    obtain ⟨hres, _⟩ := hrun
    rw [hpres _ _ _ hres, hdat0]

theorem trivialStrategyExec_preservesKey (k : Pubkey) :
    PreservesKey k trivialStrategyExec := by
  intro c a a2 h
  cases h
  rfl

/-! Claim theorems. -/

/-- C5 (failing input): the claim says unpack is total and returns
InvalidInstruction, never panicking, whenever a fixed-width field cannot be
sliced.  On the buffer consisting of the single tag byte 0 (InitializeVault
with its four one-byte fields missing) the code panics through
Option::unwrap instead; likewise on a partial field list.  The empty buffer,
a short Deposit payload, and an unrecognized opcode do return
InvalidInstruction as claimed. -/
theorem C5_unpack_panics_on_short_initialize_fields :
    unpack [0] = RunResult.panicked ∧
    unpack [0, 1, 2] = RunResult.panicked ∧
    unpack [64] = RunResult.panicked ∧
    unpack [] = RunResult.err .InvalidInstruction ∧
    unpack [1] = RunResult.err .InvalidInstruction ∧
    unpack [2, 1, 2, 3] = RunResult.err .InvalidInstruction ∧
    unpack [5] = RunResult.err .InvalidInstruction ∧
    unpack [77] = RunResult.err .InvalidInstruction := by decide

/-- C7 (failing input): the claim says WriteData fails with the
insufficient-space error exactly when the payload exceeds the allocated
length and succeeds otherwise.  On an 8-byte account: a 9-byte payload does
fail with the insufficient-space error (InvalidArgument) and an exactly
8-byte payload does succeed with the contents overwritten even though the
account balance is non-zero (only logged), but a 3-byte payload — allowed by
the claim — panics in clone_from_slice because the payload is shorter than
the allocated storage. -/
theorem C7_write_data_panics_on_short_payload :
    exScratch.data.length = 8 ∧ exScratch.lamports = 5 ∧
    process_write_data [exScratch] [1, 2, 3] = ⟨.panicked, []⟩ ∧
    process_write_data [exScratch] (List.replicate 9 1) =
      ⟨.err .InvalidArgument, []⟩ ∧
    process_write_data [exScratch] (List.replicate 8 7) =
      ⟨.ok [{ exScratch with data := List.replicate 8 7 }], []⟩ := by decide

/-- C1 (counterexample): the claim says no operation other than a first
Initialize changes is_initialized or strategy_program_id.  Processing a
WriteData instruction aimed at the initialized storage account succeeds and
replaces the whole record: the stored record afterwards has is_initialized
false (reverting the flag) and a different strategy_program_id. -/
theorem C1_counterexample :
    vaultUnpackUnchecked exStorage.data = .ok exRecord ∧
    exRecord.is_initialized = true ∧
    (process trivialStrategyExec exProgramId [exStorage]
        (4 :: List.replicate 109 0)).result =
      .ok [{ exStorage with data := List.replicate 109 0 }] ∧
    vaultUnpackUnchecked (List.replicate 109 0) =
      .ok (Vault.mk false false ⟨0⟩ ⟨0⟩ ⟨0⟩ 0 0 0 0) ∧
    (false : Bool) ≠ exRecord.is_initialized ∧
    (⟨0⟩ : Pubkey) ≠ exRecord.strategy_program_id := by decide

/-- C4 (counterexample): the claim says the signer check runs first, before
the asset-account ownership check, so an Initialize whose initializer has
not signed would fail with the missing-signature error.  On a concrete call
where the initializer is not a signer and the vault token account has the
wrong owner, the processor instead fails with the wrong-owner error
(IncorrectProgramId): the ownership check runs before the signer check. -/
theorem C4_counterexample :
    ({ exOwner with is_signer := false } : AccountInfo).is_signer = false ∧
    process_initialize_vault exProgramId
      [{ exOwner with is_signer := false }, exStorageNew,
        { exVta with owner := ⟨77⟩ }, exLlx, exTokenProgram,
        exStrategyProgram, exRent] true 11 12 13 =
      ⟨.err .IncorrectProgramId, []⟩ ∧
    ProgramError.IncorrectProgramId ≠ ProgramError.MissingRequiredSignature := by
  decide

/-- C2: on a Withdraw against an initialized hodl Vault whose supplied
strategy matches the record, the processor re-reads the recorded owner of
the held-balance token account immediately before the transfer, and whenever
that owner differs from the authority derived from the fixed seed and the
program identity the run fails with AccountInconsistency with an empty
invocation trace — no transfer is performed and, failure aborting the
instruction, no account state changes. -/
theorem C2_withdraw_revalidates_owner
    (strategyExec : Cpi → List AccountInfo → ProcOut) (program_id : Pubkey)
    (token_program source target authority storage strat x : AccountInfo)
    (rest : List AccountInfo) (amount : Nat) (v : Vault) (t : TokenAccount)
    (hv : vaultUnpackUnchecked storage.data = .ok v)
    (hinit : v.is_initialized = true) (hhodl : v.hodl = true)
    (hstrat : strat.key = v.strategy_program_id)
    (ht : tokenUnpack x.data = some t)
    (howner : t.owner ≠ (findProgramAddress VAULT_SEED program_id).1) :
    process_transfer strategyExec program_id
      (token_program :: source :: target :: authority :: storage :: strat ::
        x :: rest) amount false = ⟨.err .AccountInconsistency, []⟩ := by
  simp [process_transfer, hv, hinit, hhodl, hstrat, ht, howner]

/-- C2 (witness): the owner re-check evaluated on a concrete withdraw whose
held-balance account is owned by ⟨55⟩ rather than the derived authority. -/
theorem C2_witness :
    process_transfer trivialStrategyExec exProgramId
      [exTokenProgram, exSourceTok, exTargetTok, exAuthority, exStorage,
        exStrategyProgram, exXAccountBad] 10 false =
      ⟨.err .AccountInconsistency, []⟩ :=
  C2_withdraw_revalidates_owner trivialStrategyExec exProgramId
    exTokenProgram exSourceTok exTargetTok exAuthority exStorage
    exStrategyProgram exXAccountBad [] 10 exRecord ⟨⟨55⟩, 100, 1⟩
    (by decide) (by decide) (by decide) (by decide) (by decide) (by decide)

/-- C3: a Deposit or Withdraw on a storage record that is not initialized,
or whose caller-supplied strategy program differs from the recorded
strategy_program_id, fails with InvalidInstruction and an empty invocation
trace: no asset movement and no cross-program invocation happens, and the
aborted run leaves all account state unchanged. -/
theorem C3_transfer_preconditions
    (strategyExec : Cpi → List AccountInfo → ProcOut) (program_id : Pubkey)
    (token_program source target authority storage strat : AccountInfo)
    (rest : List AccountInfo) (amount : Nat) (is_deposit : Bool) (v : Vault)
    (hv : vaultUnpackUnchecked storage.data = .ok v)
    (hbad : v.is_initialized = false ∨ strat.key ≠ v.strategy_program_id) :
    process_transfer strategyExec program_id
      (token_program :: source :: target :: authority :: storage :: strat :: rest)
      amount is_deposit = ⟨.err .InvalidInstruction, []⟩ := by
  rcases hbad with hbad | hbad
  · simp [process_transfer, hv, hbad]
  · by_cases hinit : v.is_initialized
    · simp [process_transfer, hv, hinit, hbad]
    · simp [process_transfer, hv, hinit]

/-- C3 (witness): the precondition check evaluated on a concrete deposit
against an uninitialized storage record. -/
theorem C3_witness :
    process_transfer trivialStrategyExec exProgramId
      [exTokenProgram, exSourceTok, exTargetTok, exAuthority,
        exStorageUninit, exStrategyProgram] 10 true =
      ⟨.err .InvalidInstruction, []⟩ :=
  C3_transfer_preconditions trivialStrategyExec exProgramId
    exTokenProgram exSourceTok exTargetTok exAuthority exStorageUninit
    exStrategyProgram [] 10 true exRecordUninit (by decide) (Or.inl (by decide))

/-- C10: pack followed by unpack is a left-inverse round trip over the whole
operation enum, for every well-formed value (machine-width fields), including
every combination with the debug-crash flag; WriteData carries no payload in
the enum, so equality there is on the tag and flag, which is full equality of
the constructor. -/
theorem C10_pack_unpack_roundtrip (v : VaultInstruction) (h : v.wf) :
    unpack (pack v) = RunResult.ok v := by
  have h64 : (256 : Nat) ^ 8 = 2 ^ 64 := by norm_num
  cases v with
  | initializeVault d w e hodl dc =>
    cases dc <;> cases hodl <;>
      simp [pack, unpack, b2n, CRASH_FLAG, decodeBody]
  | deposit amount dc =>
    have hlt : amount < 2 ^ 64 := h
    have hlt2 : amount < 18446744073709551616 := by simpa using hlt
    cases dc <;>
      simp [pack, unpack, CRASH_FLAG, decodeBody, leBytes_length,
        List.take_of_length_le, fromLEBytes_leBytes, h64, Nat.mod_eq_of_lt, hlt2]
  | withdraw amount dc =>
    have hlt : amount < 2 ^ 64 := h
    have hlt2 : amount < 18446744073709551616 := by simpa using hlt
    cases dc <;>
      simp [pack, unpack, CRASH_FLAG, decodeBody, leBytes_length,
        List.take_of_length_le, fromLEBytes_leBytes, h64, Nat.mod_eq_of_lt, hlt2]
  | estimateValue dc =>
    cases dc <;> simp [pack, unpack, CRASH_FLAG, decodeBody]
  | writeData dc =>
    cases dc <;> simp [pack, unpack, CRASH_FLAG, decodeBody]

/-- C10 (witness): the round trip evaluated on a concrete flagged Deposit. -/
theorem C10_witness :
    unpack (pack (VaultInstruction.deposit 5 true)) =
      RunResult.ok (VaultInstruction.deposit 5 true) :=
  C10_pack_unpack_roundtrip (VaultInstruction.deposit 5 true) (by norm_num [VaultInstruction.wf])

/-- C6: a successful EstimateValue on an initialized hodl Vault writes to
the scratch output exactly the current amount of the held-balance token
account, encoded as 8 bytes little-endian, through one WriteData
self-invocation.  The statement quantifies over every storage record value
and account state, so the result does not depend on how many prior
operations produced that state nor on the cached last_estimated_value
field. -/
theorem C6_estimate_writes_current_amount
    (strategyExec : Cpi → List AccountInfo → ProcOut) (program_id : Pubkey)
    (prog temp storage x : AccountInfo) (rest : List AccountInfo)
    (v : Vault) (t : TokenAccount) (accounts2 : List AccountInfo)
    (cpis : List Cpi)
    (hv : vaultUnpackUnchecked storage.data = .ok v)
    (hinit : v.is_initialized = true) (hhodl : v.hodl = true)
    (ht : tokenUnpackUnchecked x.data = some t)
    (hrun : process_estimate_value strategyExec program_id
        (prog :: temp :: storage :: x :: rest) = ⟨.ok accounts2, cpis⟩) :
    dataAt accounts2 temp.key = some (leBytes 8 t.amount) ∧
    cpis = [Cpi.selfWriteData temp.key (leBytes 8 t.amount)] := by
  by_cases h1 : temp.data.length < 8
  case pos =>
    simp [process_estimate_value, hv, hinit, hhodl, ht, h1,
      leBytes_length] at hrun
  case neg =>
  by_cases h2 : temp.data.length = 8
  case neg =>
    simp [process_estimate_value, hv, hinit, hhodl, ht, h1, h2,
      leBytes_length] at hrun
  case pos =>
    simp [process_estimate_value, hv, hinit, hhodl, ht, h1, h2,
      leBytes_length] at hrun
    obtain ⟨ha, hc⟩ := hrun
    refine ⟨?_, hc.symm⟩
    rw [← ha, dataAt_setDataByKey_eq]
    by_cases hp : prog.key = temp.key
    · simp [dataAt, hp]
    · simp [dataAt, hp]

/-- C6 (witness): the estimate evaluated on a concrete hodl Vault holding
100 units, with an 8-byte scratch account. -/
theorem C6_witness :
    dataAt [exCallerProgram, { exScratch with data := leBytes 8 100 },
        exStorage, exXAccount] exScratch.key = some (leBytes 8 100) ∧
    ([Cpi.selfWriteData exScratch.key (leBytes 8 100)] : List Cpi) =
      [Cpi.selfWriteData exScratch.key (leBytes 8 100)] :=
  C6_estimate_writes_current_amount trivialStrategyExec exProgramId
    exCallerProgram exScratch exStorage exXAccount [] exRecord
    ⟨exPda, 100, 1⟩
    [exCallerProgram, { exScratch with data := leBytes 8 100 }, exStorage,
      exXAccount]
    [Cpi.selfWriteData exScratch.key (leBytes 8 100)]
    (by decide) (by decide) (by decide) (by decide) (by decide)

/-- C9: a completed EstimateValue leaves the persisted Vault Storage Record
unchanged: on success the data stored under the storage address, and hence
every decoded field including last_estimated_value, is the same before and
after; a failing run aborts and discards staged state, so it preserves the
record trivially.  The delegated branch assumes the invoked strategy honours
the estimate contract frame (PreservesKey), the external interface
obligation of section 4.4 of the spec. -/
theorem C9_estimate_preserves_vault_record
    (strategyExec : Cpi → List AccountInfo → ProcOut) (program_id : Pubkey)
    (prog temp storage : AccountInfo) (rest : List AccountInfo)
    (v : Vault) (accounts2 : List AccountInfo) (cpis : List Cpi)
    (hcons : Consistent (prog :: temp :: storage :: rest))
    (hpres : PreservesKey storage.key strategyExec)
    (hv : vaultUnpackUnchecked storage.data = .ok v)
    (hrun : process_estimate_value strategyExec program_id
        (prog :: temp :: storage :: rest) = ⟨.ok accounts2, cpis⟩) :
    dataAt accounts2 storage.key = some storage.data ∧
    vaultUnpackUnchecked (dataAtD accounts2 storage.key) = .ok v := by
  have h := estimate_ok_preserves_storage strategyExec program_id prog temp
    storage rest v accounts2 cpis hcons hpres hv hrun
  exact ⟨h, by simp [dataAtD, h, hv]⟩

/-- C9 (witness): record preservation evaluated on a concrete hodl
estimate. -/
theorem C9_witness :
    dataAt [exCallerProgram, { exScratch with data := leBytes 8 100 },
        exStorage, exXAccount] exStorage.key = some exStorage.data ∧
    vaultUnpackUnchecked (dataAtD [exCallerProgram,
        { exScratch with data := leBytes 8 100 }, exStorage, exXAccount]
        exStorage.key) = .ok exRecord :=
  C9_estimate_preserves_vault_record trivialStrategyExec exProgramId
    exCallerProgram exScratch exStorage [exXAccount] exRecord
    [exCallerProgram, { exScratch with data := leBytes 8 100 }, exStorage,
      exXAccount]
    [Cpi.selfWriteData exScratch.key (leBytes 8 100)]
    (by unfold Consistent; decide) (trivialStrategyExec_preservesKey _)
    (by decide) (by decide)

/-- C1 (amended): a second Initialize on an already-initialized record that
passes the asset-ownership and rent-exemption checks fails with
AlreadyInitialized (one failing an earlier check fails with that error
instead, see the counterexample ordering in C4); and neither a successful
Deposit, Withdraw, nor EstimateValue changes the stored record at all — in
particular is_initialized and strategy_program_id are unchanged — given
consistent account sharing and the strategy-interface frame condition for
the delegated branch.  WriteData is excluded: aimed at the storage account
it can rewrite the whole record (see the counterexample). -/
theorem C1_initialized_once_and_record_immutable :
    (∀ (program_id : Pubkey)
        (owner storage vta llx tok strat rentA : AccountInfo)
        (more : List AccountInfo) (r : Rent) (v : Vault) (hodl : Bool)
        (d w e : Nat),
        rentFromAccountInfo rentA = .ok r →
        vta.owner = tok.key → llx.owner = tok.key →
        r.isExempt storage.lamports storage.data.length = true →
        vaultUnpackUnchecked storage.data = .ok v →
        v.is_initialized = true →
        process_initialize_vault program_id
          (owner :: storage :: vta :: llx :: tok :: strat :: rentA :: more)
          hodl d w e = ⟨.err .AccountAlreadyInitialized, []⟩) ∧
    (∀ (strategyExec : Cpi → List AccountInfo → ProcOut) (program_id : Pubkey)
        (token_program source target authority storage strat : AccountInfo)
        (rest : List AccountInfo) (amount : Nat) (is_deposit : Bool)
        (v : Vault) (accounts2 : List AccountInfo) (cpis : List Cpi),
        Consistent (token_program :: source :: target :: authority ::
          storage :: strat :: rest) →
        PreservesKey storage.key strategyExec →
        vaultUnpackUnchecked storage.data = .ok v →
        process_transfer strategyExec program_id
          (token_program :: source :: target :: authority :: storage ::
            strat :: rest) amount is_deposit = ⟨.ok accounts2, cpis⟩ →
        dataAt accounts2 storage.key = some storage.data) ∧
    (∀ (strategyExec : Cpi → List AccountInfo → ProcOut) (program_id : Pubkey)
        (prog temp storage : AccountInfo) (rest : List AccountInfo)
        (v : Vault) (accounts2 : List AccountInfo) (cpis : List Cpi),
        Consistent (prog :: temp :: storage :: rest) →
        PreservesKey storage.key strategyExec →
        vaultUnpackUnchecked storage.data = .ok v →
        process_estimate_value strategyExec program_id
          (prog :: temp :: storage :: rest) = ⟨.ok accounts2, cpis⟩ →
        dataAt accounts2 storage.key = some storage.data) := by
  refine ⟨?_, ?_, ?_⟩
  · intro program_id owner storage vta llx tok strat rentA more r v hodl
      d w e h1 h2 h3 h4 h5 h6
    exact initialize_already_initialized program_id owner storage vta llx
      tok strat rentA more r v hodl d w e h1 h2 h3 h4 h5 h6
  · intro strategyExec program_id token_program source target authority
      storage strat rest amount is_deposit v accounts2 cpis h1 h2 h3 h4
    exact transfer_ok_preserves_storage strategyExec program_id
      token_program source target authority storage strat rest amount
      is_deposit v accounts2 cpis h1 h2 h3 h4
  · intro strategyExec program_id prog temp storage rest v accounts2 cpis
      h1 h2 h3 h4
    exact estimate_ok_preserves_storage strategyExec program_id prog temp
      storage rest v accounts2 cpis h1 h2 h3 h4

/-- C1 (witness): the three amended parts evaluated concretely — a second
Initialize on the initialized fixture record, a successful hodl deposit, and
a successful hodl estimate. -/
theorem C1_witness :
    process_initialize_vault exProgramId
      [exOwner, exStorage, exVta, exLlx, exTokenProgram, exStrategyProgram,
        exRent] true 11 12 13 = ⟨.err .AccountAlreadyInitialized, []⟩ ∧
    dataAt exDepositAccountsAfter exStorage.key = some exStorage.data ∧
    dataAt [exCallerProgram, { exScratch with data := leBytes 8 100 },
        exStorage, exXAccount] exStorage.key = some exStorage.data :=
  ⟨C1_initialized_once_and_record_immutable.1 exProgramId exOwner exStorage
      exVta exLlx exTokenProgram exStrategyProgram exRent [] ⟨1, 1⟩ exRecord
      true 11 12 13 (by decide) (by decide) (by decide) (by decide)
      (by decide) (by decide),
   C1_initialized_once_and_record_immutable.2.1 trivialStrategyExec
      exProgramId exTokenProgram exSourceTok exTargetTok exAuthority
      exStorage exStrategyProgram [exXAccount] 10 true exRecord
      exDepositAccountsAfter
      [Cpi.tokenTransfer ⟨100⟩ ⟨50⟩ ⟨40⟩ ⟨5⟩ 10]
      (by unfold Consistent; decide) (trivialStrategyExec_preservesKey _)
      (by decide) (by decide),
   C1_initialized_once_and_record_immutable.2.2 trivialStrategyExec
      exProgramId exCallerProgram exScratch exStorage [exXAccount] exRecord
      [exCallerProgram, { exScratch with data := leBytes 8 100 }, exStorage,
        exXAccount]
      [Cpi.selfWriteData exScratch.key (leBytes 8 100)]
      (by unfold Consistent; decide) (trivialStrategyExec_preservesKey _)
      (by decide) (by decide)⟩

/-- C4 (amended): in Initialize, the signer check runs after the
asset-account ownership check, the rent-exemption check, and the
already-initialized check (and after the record write, which a failing run
aborts): when those earlier checks pass on an uninitialized record and the
initializer has not signed, the call fails with MissingSignature before any
authority-reassignment invocation; when the ownership check fails, its
WrongOwner error wins regardless of the signer flag. -/
theorem C4_signer_check_position :
    (∀ (program_id : Pubkey)
        (owner storage vta llx tok strat rentA : AccountInfo)
        (more : List AccountInfo) (r : Rent) (v : Vault) (hodl : Bool)
        (d w e : Nat),
        rentFromAccountInfo rentA = .ok r →
        vta.owner = tok.key → llx.owner = tok.key →
        r.isExempt storage.lamports storage.data.length = true →
        vaultUnpackUnchecked storage.data = .ok v →
        v.is_initialized = false → owner.is_signer = false →
        process_initialize_vault program_id
          (owner :: storage :: vta :: llx :: tok :: strat :: rentA :: more)
          hodl d w e = ⟨.err .MissingRequiredSignature, []⟩) ∧
    (∀ (program_id : Pubkey)
        (owner storage vta llx tok strat rentA : AccountInfo)
        (more : List AccountInfo) (r : Rent) (hodl : Bool) (d w e : Nat),
        rentFromAccountInfo rentA = .ok r →
        (vta.owner ≠ tok.key ∨ llx.owner ≠ tok.key) →
        process_initialize_vault program_id
          (owner :: storage :: vta :: llx :: tok :: strat :: rentA :: more)
          hodl d w e = ⟨.err .IncorrectProgramId, []⟩) := by
  refine ⟨?_, ?_⟩
  · intro program_id owner storage vta llx tok strat rentA more r v hodl
      d w e h1 h2 h3 h4 h5 h6 h7
    exact initialize_missing_signature program_id owner storage vta llx tok
      strat rentA more r v hodl d w e h1 h2 h3 h4 h5 h6 h7
  · intro program_id owner storage vta llx tok strat rentA more r hodl
      d w e h1 h2
    exact initialize_wrong_owner program_id owner storage vta llx tok strat
      rentA more r hodl d w e h1 h2

/-- C4 (witness): the amended ordering evaluated concretely — a non-signing
initializer with all earlier checks passing yields MissingSignature, and a
wrong-owner asset account yields WrongOwner even without a signature. -/
theorem C4_witness :
    process_initialize_vault exProgramId
      [{ exOwner with is_signer := false }, exStorageNew, exVta, exLlx,
        exTokenProgram, exStrategyProgram, exRent] true 11 12 13 =
      ⟨.err .MissingRequiredSignature, []⟩ ∧
    process_initialize_vault exProgramId
      [exOwner, exStorageNew, { exVta with owner := ⟨77⟩ }, exLlx,
        exTokenProgram, exStrategyProgram, exRent] true 11 12 13 =
      ⟨.err .IncorrectProgramId, []⟩ :=
  ⟨C4_signer_check_position.1 exProgramId { exOwner with is_signer := false }
      exStorageNew exVta exLlx exTokenProgram exStrategyProgram exRent []
      ⟨1, 1⟩ (Vault.mk false false ⟨0⟩ ⟨0⟩ ⟨0⟩ 0 0 0 0) true 11 12 13
      (by decide) (by decide) (by decide) (by decide) (by decide) (by decide)
      (by decide),
   C4_signer_check_position.2 exProgramId exOwner exStorageNew
      { exVta with owner := ⟨77⟩ } exLlx exTokenProgram exStrategyProgram
      exRent [] ⟨1, 1⟩ true 11 12 13 (by decide) (Or.inl (by decide))⟩

/-- C8: a buffer whose tag byte is 65 with at least eight further bytes
decodes to a Deposit of the little-endian amount with the debug-crash flag
set; processing such an instruction performs the deposit and, whenever the
deposit itself succeeds, ends with the ForcedCrash error after the deposit
invocations (trace preserved).  Generally, every tag byte of at least 64
decodes exactly as the opcode table entry for tag minus 64 with the flag
forced on, and processing any decoded operation carrying the flag — every
opcode, so tags 64 through 68 alike — ends with the ForcedCrash error after
the selected operation executed successfully, its invocation trace
preserved. -/
theorem C8_crash_flag_dispatch :
    (∀ rest : List Nat, 8 ≤ rest.length →
      unpack (65 :: rest) =
        RunResult.ok (.deposit (fromLEBytes (rest.take 8)) true)) ∧
    (∀ (strategyExec : Cpi → List AccountInfo → ProcOut)
        (program_id : Pubkey) (accounts : List AccountInfo) (amount : Nat)
        (accounts2 : List AccountInfo) (cpis : List Cpi),
        amount < 2 ^ 64 →
        process_transfer strategyExec program_id accounts amount true =
          ⟨.ok accounts2, cpis⟩ →
        process strategyExec program_id accounts (65 :: leBytes 8 amount) =
          ⟨.err .ForcedCrash, cpis⟩) ∧
    (∀ (strategyExec : Cpi → List AccountInfo → ProcOut)
        (program_id : Pubkey) (accounts : List AccountInfo)
        (instruction_data : List Nat) (instruction : VaultInstruction)
        (accounts2 : List AccountInfo) (cpis : List Cpi),
        unpack instruction_data = .ok instruction →
        instruction.debugCrash = true →
        processDecoded strategyExec program_id accounts instruction_data
          instruction = ⟨.ok accounts2, cpis⟩ →
        process strategyExec program_id accounts instruction_data =
          ⟨.err .ForcedCrash, cpis⟩) ∧
    (∀ (tag_raw : Nat) (rest : List Nat), 64 ≤ tag_raw →
        unpack (tag_raw :: rest) = decodeBody (tag_raw - 64) true rest) := by
  refine ⟨?_, ?_, ?_, ?_⟩
  · intro rest hlen
    simp [unpack, CRASH_FLAG, decodeBody, hlen]
  · intro strategyExec program_id accounts amount accounts2 cpis hamt hrun
    have hamt2 : amount < 18446744073709551616 := by simpa using hamt
    have hdec : unpack (65 :: leBytes 8 amount) =
        RunResult.ok (.deposit amount true) := by
      have h64 : (256 : Nat) ^ 8 = 2 ^ 64 := by norm_num
      simp [unpack, CRASH_FLAG, decodeBody, leBytes_length,
        List.take_of_length_le, fromLEBytes_leBytes, h64,
        Nat.mod_eq_of_lt, hamt2]
    simp [process, hdec, processDecoded, hrun, VaultInstruction.debugCrash]
  · intro strategyExec program_id accounts instruction_data instruction
      accounts2 cpis hdec hflag hrun
    simp [process, hdec, hrun, hflag]
  · intro tag_raw rest ht
    simp [unpack, CRASH_FLAG, ht]

/-- C8 (witness): the parts evaluated concretely — decoding tag 65 with
amount 10; running it on a deposit that succeeds (ForcedCrash after the
transfer invocation); the general epilogue at the non-Deposit tag 67 (a
flagged EstimateValue, crashing after its WriteData self-invocation); and
the general flag-stripping at tag byte 70. -/
theorem C8_witness :
    unpack (65 :: leBytes 8 10) =
      RunResult.ok (.deposit (fromLEBytes ((leBytes 8 10).take 8)) true) ∧
    process trivialStrategyExec exProgramId exDepositAccounts
      (65 :: leBytes 8 10) =
      ⟨.err .ForcedCrash, [Cpi.tokenTransfer ⟨100⟩ ⟨50⟩ ⟨40⟩ ⟨5⟩ 10]⟩ ∧
    process trivialStrategyExec exProgramId
      [exCallerProgram, exScratch, exStorage, exXAccount] [67] =
      ⟨.err .ForcedCrash,
        [Cpi.selfWriteData exScratch.key (leBytes 8 100)]⟩ ∧
    unpack (70 :: [1, 2, 3]) = decodeBody 6 true [1, 2, 3] :=
  ⟨C8_crash_flag_dispatch.1 (leBytes 8 10) (by decide),
   C8_crash_flag_dispatch.2.1 trivialStrategyExec exProgramId
     exDepositAccounts 10 exDepositAccountsAfter
     [Cpi.tokenTransfer ⟨100⟩ ⟨50⟩ ⟨40⟩ ⟨5⟩ 10] (by norm_num) (by decide),
   C8_crash_flag_dispatch.2.2.1 trivialStrategyExec exProgramId
     [exCallerProgram, exScratch, exStorage, exXAccount] [67]
     (.estimateValue true)
     [exCallerProgram, { exScratch with data := leBytes 8 100 }, exStorage,
       exXAccount]
     [Cpi.selfWriteData exScratch.key (leBytes 8 100)]
     (by decide) (by decide) (by decide),
   C8_crash_flag_dispatch.2.2.2 70 [1, 2, 3] (by norm_num)⟩

end CoveVault
